import Mathlib

/-!
Shallow embedding of the math-lock quiz program (src/math_lock.py) and
proofs about it.  The quiz state of the Cocoa `Delegate` object is
modelled by the record `St`; the focus watchdog and the flash-timer
subsystem, which touch disjoint parts of the object, are modelled by the
records `FocusSt` and `FlashSys`.  Randomness consumed by `new_question`
is made an explicit argument (`Rng`).
-/

namespace MathLock

/-! ### Python integer parsing and decimal rendering, over char lists -/

/-- Numeric value of an ASCII digit character. -/
def digitVal (c : Char) : Nat := c.toNat - 48

/-- The ASCII digit character for `d`, meaningful for `d < 10`. -/
def digitChar (d : Nat) : Char := Char.ofNat (48 + d)

/-- ASCII digit test; the single-character case of Python `str.isdigit`
(over the ASCII alphabet in which key input is modelled). -/
def isAsciiDigit (c : Char) : Bool := decide (48 ≤ c.toNat) && decide (c.toNat ≤ 57)

/-- Whitespace stripped by Python `str.strip()` with no argument
(ASCII range: space, tab, newline, carriage return, vertical tab, form feed). -/
def isSpaceChar (c : Char) : Bool :=
  decide (c.toNat = 32) || decide (c.toNat = 9) || decide (c.toNat = 10) ||
  decide (c.toNat = 13) || decide (c.toNat = 11) || decide (c.toNat = 12)

/-- Python `str.strip()`: drop whitespace from both ends. -/
def pyStrip (l : List Char) : List Char :=
  ((l.dropWhile isSpaceChar).reverse.dropWhile isSpaceChar).reverse

/-- Value of a big-endian list of digit characters. -/
def chars2nat (l : List Char) : Nat := l.foldl (fun a c => a * 10 + digitVal c) 0

/-- Parse a nonempty all-digit character list; `none` otherwise. -/
def parseDigits (l : List Char) : Option Nat :=
  if !l.isEmpty && l.all isAsciiDigit then some (chars2nat l) else none

/-- Python `int(s)` on a character list: after stripping, an optional
sign followed by at least one decimal digit; any other shape raises
`ValueError`, modelled as `none`. -/
def pyInt? (l : List Char) : Option Int :=
  match pyStrip l with
  | [] => none
  | c :: rest =>
    if c = '+' then (parseDigits rest).map (fun n => (n : Int))
    else if c = '-' then (parseDigits rest).map (fun n => -(n : Int))
    else (parseDigits (c :: rest)).map (fun n => (n : Int))

/-- Decimal digits of a positive number, most significant first.  The
first argument is fuel making the recursion structural; `fuel = n` is
always enough. -/
def natCharsAux : Nat → Nat → List Char
  | 0, _ => []
  | _ + 1, 0 => []
  | fuel + 1, n + 1 => natCharsAux fuel ((n + 1) / 10) ++ [digitChar ((n + 1) % 10)]

/-- Decimal rendering of a natural number, as Python `str` produces it. -/
def natChars (n : Nat) : List Char := if n = 0 then [digitChar 0] else natCharsAux n n

/-- Decimal rendering of an integer, as Python `str` produces it. -/
def intChars (i : Int) : List Char :=
  if i < 0 then '-' :: natChars i.natAbs else natChars i.natAbs

/-! ### Data model: questions and the question generator -/

/-- Window background colors used by the program. -/
inductive Color
  | black
  | red
  | green
deriving DecidableEq

/-- The four operator kinds of the OPS table. -/
inductive Op
  | add
  | sub
  | mul
  | divi
deriving DecidableEq

/-- Display symbol of an operator, as in the OPS table. -/
def Op.symbol : Op → Char
  | .add => '+'
  | .sub => '-'
  | .mul => '×'
  | .divi => '÷'

/-- Evaluation function of an operator, as in the OPS table; division is
Python floor division. -/
def Op.eval : Op → Int → Int → Int
  | .add, a, b => a + b
  | .sub, a, b => a - b
  | .mul, a, b => a * b
  | .divi, a, b => Int.fdiv a b

/-- An arithmetic question: operator and the two operands chosen by
new_question.  The displayed text and the expected answer are derived
exactly as new_question derives them. -/
structure Question where
  op : Op
  a : Int
  b : Int
deriving DecidableEq

/-- The integer answer fn(a, b) returned by new_question. -/
def Question.expectedAnswer (q : Question) : Int := q.op.eval q.a q.b

/-- The display string returned by new_question. -/
def Question.displayText (q : Question) : List Char :=
  intChars q.a ++ [' ', q.op.symbol, ' '] ++ intChars q.b ++ [' ', '=']

/-- Randomness consumed by one call of new_question: the operator picked
by random.choice, the randint results of the multiplication and division
branches, and the successive randint pairs drawn by the redraw loop of
the addition and subtraction branch. -/
structure Rng where
  op : Op
  mulA : Int
  mulB : Int
  divB : Int
  divQ : Int
  addSubDraws : List (Int × Int)

/-- Every randint result lies in the range the source requests:
randint(2, 12) for multiplication, randint(3, 7) and randint(2, 25) for
division, randint(7, 25) pairs for addition and subtraction. -/
def Rng.Valid (r : Rng) : Prop :=
  2 ≤ r.mulA ∧ r.mulA ≤ 12 ∧ 2 ≤ r.mulB ∧ r.mulB ≤ 12 ∧
  3 ≤ r.divB ∧ r.divB ≤ 7 ∧ 2 ≤ r.divQ ∧ r.divQ ≤ 25 ∧
  ∀ p ∈ r.addSubDraws, 7 ≤ p.1 ∧ p.1 ≤ 25 ∧ 7 ≤ p.2 ∧ p.2 ≤ 25

/-- The redraw loop of the addition and subtraction branch: keep drawing
until a pair with distinct components appears; none if the supplied
draws run out first. -/
def firstDistinct : List (Int × Int) → Option (Int × Int)
  | [] => none
  | p :: rest => if p.1 ≠ p.2 then some p else firstDistinct rest

/-- new_question from the source, with the randomness explicit.  The
multiplication branch uses the two randint(2, 12) results; the division
branch sets a := b * q from randint(3, 7) and randint(2, 25); the
addition and subtraction branch redraws randint(7, 25) pairs until the
components differ. -/
def new_question (r : Rng) : Option Question :=
  match r.op with
  | .mul => some ⟨.mul, r.mulA, r.mulB⟩
  | .divi => some ⟨.divi, r.divB * r.divQ, r.divB⟩
  | .add => (firstDistinct r.addSubDraws).map (fun p => ⟨.add, p.1, p.2⟩)
  | .sub => (firstDistinct r.addSubDraws).map (fun p => ⟨.sub, p.1, p.2⟩)

/-! ### Quiz engine state (the quiz-related fields of the Delegate) -/

def TOTAL_QUESTIONS : Int := 3

def FAIL_THRESHOLD : Int := 2

/-- Counter label text built by update_counter. -/
def counterText (remaining wrong : Int) : List Char :=
  ("Problems left before Zohar can waste her time on YouTube: ").toList ++
    intChars remaining ++ ['\n'] ++ ("Strikes: ").toList ++ intChars wrong ++
    (" / ").toList ++ intChars FAIL_THRESHOLD

/-- Quiz state of the Delegate: remaining and wrong_answers counters, the
current answer, the question label text, the answer field contents, the
counter label text, the window background color, visibility of the
answer field and the failure label, and the failure-flash tick state.
Focus (first responder and caret) lives in a disjoint part of the object
and is modelled separately by FocusSt; pending flash revert timers by
FlashSys. -/
structure St where
  remaining : Int
  wrong_answers : Int
  answer : Int
  qLabel : List Char
  buffer : List Char
  counter : List Char
  bg : Color
  scrollHidden : Bool
  failedHidden : Bool
  flash_count : Int
  failureTimerActive : Bool
deriving DecidableEq

/-- update_counter: rebuild the counter label from the current counters. -/
def update_counter (s : St) : St :=
  { s with counter := counterText s.remaining s.wrong_answers }

/-- The immediate effect of flash_: set the background green or red.
The scheduling of the 0.35 s revert timer is modelled by flashAt on
FlashSys. -/
def flash (ok : Bool) (s : St) : St :=
  { s with bg := if ok then Color.green else Color.red }

/-- next_q: zero the strike counter, install the freshly generated
question nq, clear the answer field, rebuild the counter.  The trailing
establish_focus call touches only the focus component (see FocusSt). -/
def next_q (nq : Question) (s : St) : St :=
  update_counter
    { s with
      wrong_answers := 0
      answer := nq.expectedAnswer
      qLabel := nq.displayText
      buffer := [] }

/-- One failureFlash_ timer tick: alternate the background by tick
parity, bump the tick count, and on the sixth tick invalidate the timer,
restore the answer field, zero the strikes, increment remaining, and
rebuild the counter. -/
def failureFlash (s : St) : St :=
  let s1 : St := { s with
    bg := if s.flash_count % 2 = 0 then Color.red else Color.black
    flash_count := s.flash_count + 1 }
  if s1.flash_count ≥ 6 then
    update_counter
      { s1 with
        failureTimerActive := false
        failedHidden := true
        scrollHidden := false
        wrong_answers := 0
        remaining := s1.remaining + 1 }
  else s1

/-- show_failure: hide the answer field, show the failure label, start
the repeating 0.7 s failure timer, and run the first tick at once. -/
def show_failure (s : St) : St :=
  failureFlash
    { s with
      scrollHidden := true
      failedHidden := false
      flash_count := 0
      failureTimerActive := true }

/-- Iterate failureFlash ticks (the repeating timer firing n times). -/
def runTicks : Nat → St → St
  | 0, s => s
  | n + 1, s => runTicks n (failureFlash s)

/-- Outcome of one check_answer call, for stating properties: named
after the branch taken.  sessionComplete is the branch that calls
NSApp.terminate_. -/
inductive Outcome
  | correct
  | sessionComplete
  | incorrect
  | malformed
  | failureStarted
deriving DecidableEq

/-- check_answer from the source.  The freshly generated question that
next_q would install is passed in as nq.  establish_focus calls touch
only the focus component and are not part of St. -/
def check_answer (nq : Question) (s : St) : St × Outcome :=
  match pyInt? s.buffer with
  | none => ({ flash false s with buffer := [] }, Outcome.malformed)
  | some guess =>
    if guess = s.answer then
      let s1 := flash true { s with remaining := s.remaining - 1 }
      if s1.remaining = 0 then (s1, Outcome.sessionComplete)
      else (next_q nq s1, Outcome.correct)
    else
      let s1 := { s with wrong_answers := s.wrong_answers + 1, buffer := [] }
      if s1.wrong_answers ≥ FAIL_THRESHOLD then (show_failure s1, Outcome.failureStarted)
      else (update_counter (flash false s1), Outcome.incorrect)

/-- Submitting text t: the answer field holds t when Enter triggers
check_answer. -/
def submit (nq : Question) (t : List Char) (s : St) : St × Outcome :=
  check_answer nq { s with buffer := t }

/-- Object state before applicationDidFinishLaunching_ initializes the
quiz fields. -/
def initSt : St :=
  { remaining := 0
    wrong_answers := 0
    answer := 0
    qLabel := []
    buffer := []
    counter := []
    bg := Color.black
    scrollHidden := false
    failedHidden := true
    flash_count := 0
    failureTimerActive := false }

/-- Tail of applicationDidFinishLaunching_: remaining := TOTAL_QUESTIONS
and the first next_q, with q0 the first generated question. -/
def start (q0 : Question) : St :=
  next_q q0 { initSt with remaining := TOTAL_QUESTIONS }

/-! ### Input filter (AnswerTextView) -/

/-- One keyDown event: the hardware key code and the characters string. -/
structure KeyEvent where
  keyCode : Nat
  characters : List Char
deriving DecidableEq

/-- The code point ranges (inclusive) on which Python str.isdigit is
true for a single character: the Unicode code points with Numeric_Type
Decimal or Digit.  Extracted from the Unicode character database at
Unicode 15 (the version of CPython 3.12 and later; the source states it
runs on Python 3.13).  Besides the ASCII digits 0x30-0x39 this contains,
for example, the superscripts 0xB2, 0xB3 and 0xB9 and the Arabic-Indic
digits 0x660-0x669. -/
def pyDigitRanges : List (Nat × Nat) :=
  [(48, 57), (178, 179), (185, 185), (1632, 1641), (1776, 1785), (1984, 1993),
   (2406, 2415), (2534, 2543), (2662, 2671), (2790, 2799), (2918, 2927),
   (3046, 3055), (3174, 3183), (3302, 3311), (3430, 3439), (3558, 3567),
   (3664, 3673), (3792, 3801), (3872, 3881), (4160, 4169), (4240, 4249),
   (4969, 4977), (6112, 6121), (6160, 6169), (6470, 6479), (6608, 6618),
   (6784, 6793), (6800, 6809), (6992, 7001), (7088, 7097), (7232, 7241),
   (7248, 7257), (8304, 8304), (8308, 8313), (8320, 8329), (9312, 9320),
   (9332, 9340), (9352, 9360), (9450, 9450), (9461, 9469), (9471, 9471),
   (10102, 10110), (10112, 10120), (10122, 10130), (42528, 42537),
   (43216, 43225), (43264, 43273), (43472, 43481), (43504, 43513),
   (43600, 43609), (44016, 44025), (65296, 65305), (66720, 66729),
   (68160, 68163), (68912, 68921), (69216, 69224), (69714, 69722),
   (69734, 69743), (69872, 69881), (69942, 69951), (70096, 70105),
   (70384, 70393), (70736, 70745), (70864, 70873), (71248, 71257),
   (71360, 71369), (71472, 71481), (71904, 71913), (72016, 72025),
   (72784, 72793), (73040, 73049), (73120, 73129), (73552, 73561),
   (92768, 92777), (92864, 92873), (93008, 93017), (120782, 120831),
   (123200, 123209), (123632, 123641), (124144, 124153), (125264, 125273),
   (127232, 127242), (130032, 130041)]

/-- Python str.isdigit on a single character: membership in the Unicode
digit table.  True for the ASCII digits and also for non-ASCII digit
characters such as superscript two (U+00B2). -/
def pyIsDigitChar (c : Char) : Bool :=
  pyDigitRanges.any (fun p => decide (p.1 ≤ c.toNat) && decide (c.toNat ≤ p.2))

/-- Python str.isdigit: nonempty and every character a Unicode digit. -/
def pyIsDigitStr (s : List Char) : Bool := !s.isEmpty && s.all pyIsDigitChar

/-- The Python substring test of the characters string against the
two-character sign string: the empty string, either sign, or both signs
in order. -/
def pyInPlusMinus (s : List Char) : Bool :=
  decide (s = []) || decide (s = ['+']) || decide (s = ['-']) || decide (s = ['+', '-'])

/-- insertText_ from the source: insert only text passing the digit or
sign test; anything else is dropped. -/
def insertTextFilter (t : List Char) : List Char :=
  if pyIsDigitStr t || pyInPlusMinus t then t else []

/-- keyDown_ from the source, as its effect on the answer buffer plus
whether the Enter handler (submission) fires.  Key code 36 is Enter and
51 is Backspace; an accepted character event reaches insertText_ through
the superclass keyDown. -/
def keyDown (e : KeyEvent) (buf : List Char) : List Char × Bool :=
  if e.keyCode = 36 then (buf, true)
  else if !e.characters.isEmpty && (pyIsDigitStr e.characters || pyInPlusMinus e.characters) then
    (buf ++ insertTextFilter e.characters, false)
  else if e.keyCode = 51 then (buf.dropLast, false)
  else (buf, false)

/-! ### Focus watchdog (delayedFocus_ and ensureFocus_) -/

/-- Who holds first responder status in the lock window. -/
inductive Responder
  | ansField
  | other
deriving DecidableEq

/-- Focus component of the object: the reported first responder of the
window and the selected range of the answer field. -/
structure FocusSt where
  firstResponder : Responder
  caret : Nat × Nat
deriving DecidableEq

/-- delayedFocus_ from the source: if the answer field is not first
responder, make it so and reset the selection; otherwise do nothing. -/
def delayedFocus (s : FocusSt) : FocusSt :=
  if s.firstResponder ≠ Responder.ansField then
    { firstResponder := Responder.ansField, caret := (0, 0) }
  else s

/-- ensureFocus_ from the source: the repeating 0.15 s heartbeat tick;
same check-then-act body as delayedFocus_. -/
def ensureFocus (s : FocusSt) : FocusSt :=
  if s.firstResponder ≠ Responder.ansField then
    { firstResponder := Responder.ansField, caret := (0, 0) }
  else s

/-! ### Simple flash revert timers (flash_ and resetColor_) -/

/-- The 0.35 s revert delay of flash_, in hundredths of a second. -/
def flashDelay : Nat := 35

/-- Background color together with the pending one-shot resetColor_
timers, each recorded by its absolute fire time in hundredths of a
second. -/
structure FlashSys where
  bg : Color
  pending : List Nat
deriving DecidableEq

/-- flash_ requested at time t: set the flash color and schedule a fresh
one-shot resetColor_ timer for t + 0.35 s.  The source never stores or
invalidates a previous timer, so existing pending timers stay. -/
def flashAt (t : Nat) (ok : Bool) (f : FlashSys) : FlashSys :=
  { bg := if ok then Color.green else Color.red
    pending := f.pending ++ [t + flashDelay] }

/-- resetColor_: revert the background to black. -/
def resetColor (f : FlashSys) : FlashSys := { f with bg := Color.black }

/-- A pending timer with fire time t fires: resetColor_ runs and the
one-shot timer is spent. -/
def fireAt (t : Nat) (f : FlashSys) : FlashSys :=
  if t ∈ f.pending then { resetColor f with pending := f.pending.erase t } else f

/-! ### Concrete questions and states used in closed theorems -/

/-- A concrete generated question: 7 + 8, expected answer 15. -/
def qDemo : Question := ⟨Op.add, 7, 8⟩

/-- A concrete generated question: 2 times 3, expected answer 6. -/
def qB : Question := ⟨Op.mul, 2, 3⟩

/-- A concrete generated question: 9 minus 4, expected answer 5. -/
def qC : Question := ⟨Op.sub, 9, 4⟩

/-- A concrete generated question: 12 divided by 3, expected answer 4. -/
def qD : Question := ⟨Op.divi, 12, 3⟩

/-- A concrete randomness draw taking the division branch with b = 3 and
quotient 4. -/
def rDemo : Rng := ⟨Op.divi, 2, 2, 3, 4, []⟩

/-- The question new_question produces from rDemo. -/
def qDiv : Question := ⟨Op.divi, 12, 3⟩

/-- A state one correct answer away from completion. -/
def sLast : St := { initSt with remaining := 1, answer := 5 }

/-- Scenario trace: the freshly started session (remaining 3, answer 15). -/
def c4s0 : St := start qDemo

/-- Scenario trace: after the first wrong submission. -/
def c4w1 : St := (submit qDemo ['4'] c4s0).1

/-- Scenario trace: the second wrong submission, which trips the
threshold. -/
def c4w2 : St × Outcome := submit qDemo ['4'] c4w1

/-- Scenario trace: after the remaining five failure-flash ticks. -/
def c4sF : St := runTicks 5 c4w2.1

/-- Scenario trace: first correct submission after the failure. -/
def c4c1 : St × Outcome := submit qB ['1', '5'] c4sF

/-- Scenario trace: second correct submission. -/
def c4c2 : St × Outcome := submit qC ['6'] c4c1.1

/-- Scenario trace: third correct submission. -/
def c4c3 : St × Outcome := submit qD ['5'] c4c2.1

/-- Scenario trace: fourth correct submission. -/
def c4c4 : St × Outcome := submit qDemo ['4'] c4c3.1

/-! ### Decimal parse and render lemmas -/

theorem digitChar_toNat {d : Nat} (h : d < 10) : (digitChar d).toNat = 48 + d := by
  interval_cases d <;> decide

theorem chars2nat_append (l : List Char) (c : Char) :
    chars2nat (l ++ [c]) = chars2nat l * 10 + digitVal c := by
  simp [chars2nat, List.foldl_append]

theorem natCharsAux_zero (fuel : Nat) : natCharsAux fuel 0 = [] := by
  cases fuel <;> rfl

theorem natCharsAux_spec (fuel : Nat) : ∀ n, 0 < n → n ≤ fuel →
    natCharsAux fuel n ≠ [] ∧
    (∀ c ∈ natCharsAux fuel n, 48 ≤ c.toNat ∧ c.toNat ≤ 57) ∧
    chars2nat (natCharsAux fuel n) = n := by
  induction fuel with
  | zero => intro n h1 h2; omega
  | succ fuel ih =>
    intro n h1 h2
    obtain ⟨m, rfl⟩ : ∃ m, n = m + 1 := ⟨n - 1, by omega⟩
    simp only [natCharsAux]
    by_cases hq : (m + 1) / 10 = 0
    · have hm : m + 1 < 10 := by omega
      rw [hq, natCharsAux_zero]
      refine ⟨by simp, ?_, ?_⟩
      · intro c hc
        simp only [List.nil_append, List.mem_singleton] at hc
        subst hc
        rw [digitChar_toNat (by omega)]
        omega
      · simp only [List.nil_append]
        show chars2nat ([] ++ [digitChar ((m + 1) % 10)]) = m + 1
        rw [chars2nat_append]
        simp only [chars2nat, List.foldl_nil, digitVal, digitChar_toNat (Nat.mod_lt _ (by omega))]
        omega
    · have hpos : 0 < (m + 1) / 10 := Nat.pos_of_ne_zero hq
      have hle : (m + 1) / 10 ≤ fuel := by omega
      obtain ⟨hne, hdig, hval⟩ := ih ((m + 1) / 10) hpos hle
      refine ⟨by simp, ?_, ?_⟩
      · intro c hc
        rcases List.mem_append.mp hc with h | h
        · exact hdig c h
        · simp only [List.mem_singleton] at h
          subst h
          rw [digitChar_toNat (Nat.mod_lt _ (by omega))]
          omega
      · rw [chars2nat_append, hval]
        simp only [digitVal, digitChar_toNat (Nat.mod_lt _ (by omega))]
        omega

theorem natChars_spec (n : Nat) :
    natChars n ≠ [] ∧
    (∀ c ∈ natChars n, 48 ≤ c.toNat ∧ c.toNat ≤ 57) ∧
    chars2nat (natChars n) = n := by
  by_cases h : n = 0
  · subst h
    have h0 : natChars 0 = [digitChar 0] := rfl
    refine ⟨by rw [h0]; simp, ?_, by decide⟩
    intro c hc
    rw [h0, List.mem_singleton] at hc
    subst hc
    decide
  · simpa [natChars, h] using natCharsAux_spec n n (Nat.pos_of_ne_zero h) le_rfl

theorem dropWhile_all_false {p : Char → Bool} {l : List Char}
    (h : ∀ c ∈ l, p c = false) : l.dropWhile p = l := by
  cases l with
  | nil => rfl
  | cons a l => simp [List.dropWhile_cons, h a (by simp)]

theorem pyStrip_id {l : List Char} (h : ∀ c ∈ l, isSpaceChar c = false) :
    pyStrip l = l := by
  unfold pyStrip
  rw [dropWhile_all_false h,
    dropWhile_all_false (fun c hc => h c (List.mem_reverse.mp hc)),
    List.reverse_reverse]

theorem digit_not_space {c : Char} (h48 : 48 ≤ c.toNat) (h57 : c.toNat ≤ 57) :
    isSpaceChar c = false := by
  simp only [isSpaceChar, Bool.or_eq_false_iff, decide_eq_false_iff_not]
  omega

theorem digit_ne_plus {c : Char} (h48 : 48 ≤ c.toNat) : c ≠ '+' := by
  intro h
  subst h
  exact absurd h48 (by decide)

theorem digit_ne_minus {c : Char} (h48 : 48 ≤ c.toNat) : c ≠ '-' := by
  intro h
  subst h
  exact absurd h48 (by decide)

theorem parseDigits_digits {l : List Char} (hne : l ≠ [])
    (hd : ∀ c ∈ l, 48 ≤ c.toNat ∧ c.toNat ≤ 57) :
    parseDigits l = some (chars2nat l) := by
  have h1 : l.isEmpty = false := by simpa using hne
  have h2 : l.all isAsciiDigit = true := by
    rw [List.all_eq_true]
    intro c hc
    simp only [isAsciiDigit, Bool.and_eq_true, decide_eq_true_eq]
    exact hd c hc
  simp [parseDigits, h1, h2]

/-- Round trip: the decimal rendering of any integer parses back to it. -/
theorem pyInt_intChars (i : Int) : pyInt? (intChars i) = some i := by
  obtain ⟨hne, hdig, hval⟩ := natChars_spec i.natAbs
  by_cases hi : i < 0
  · have hrep : intChars i = '-' :: natChars i.natAbs := by simp [intChars, hi]
    have hnos : ∀ c ∈ intChars i, isSpaceChar c = false := by
      rw [hrep]
      intro c hc
      rcases List.mem_cons.mp hc with rfl | hc
      · decide
      · exact digit_not_space (hdig c hc).1 (hdig c hc).2
    have hstrip : pyStrip (intChars i) = '-' :: natChars i.natAbs := by
      rw [pyStrip_id hnos, hrep]
    simp only [pyInt?, hstrip]
    simp [parseDigits_digits hne hdig, hval]
    rw [abs_of_neg hi, neg_neg]
  · have hrep : intChars i = natChars i.natAbs := by simp [intChars, hi]
    have hnos : ∀ c ∈ intChars i, isSpaceChar c = false := by
      rw [hrep]
      intro c hc
      exact digit_not_space (hdig c hc).1 (hdig c hc).2
    obtain ⟨c, rest, hcr⟩ := List.exists_cons_of_ne_nil hne
    have hcmem : c ∈ natChars i.natAbs := by
      rw [hcr]
      exact List.mem_cons_self c rest
    have hc48 := (hdig c hcmem).1
    have hstrip : pyStrip (intChars i) = c :: rest := by
      rw [pyStrip_id hnos, hrep, hcr]
    simp only [pyInt?, hstrip]
    rw [if_neg (digit_ne_plus hc48), if_neg (digit_ne_minus hc48), ← hcr,
      parseDigits_digits hne hdig, hval]
    have hcast : ((i.natAbs : Nat) : Int) = i := by omega
    simp [hcast]

/-- The redraw loop only ever returns a pair with distinct components. -/
theorem firstDistinct_ne : ∀ {l : List (Int × Int)} {p : Int × Int},
    firstDistinct l = some p → p.1 ≠ p.2 := by
  intro l
  induction l with
  | nil => intro p h; simp [firstDistinct] at h
  | cons a l ih =>
    intro p h
    by_cases hab : a.1 = a.2
    · simp only [firstDistinct, ne_eq, hab, not_true_eq_false, if_false] at h
      exact ih h
    · simp only [firstDistinct, ne_eq, hab, not_false_eq_true, if_true,
        Option.some_inj] at h
      subst h
      exact hab

/-! ### Claim theorems -/

/-- C1: in any reachable asking state (at least one question remaining),
submitting the decimal string of the current expected answer decrements
remaining by exactly one; it yields the sessionComplete branch when this
was the last question, and otherwise yields the correct branch with the
strike counter reset to zero for the next question. -/
theorem correct_answer_progress (s : St) (nq : Question) (h : 1 ≤ s.remaining) :
    (submit nq (intChars s.answer) s).1.remaining = s.remaining - 1 ∧
    (s.remaining = 1 → (submit nq (intChars s.answer) s).2 = Outcome.sessionComplete) ∧
    (1 < s.remaining →
      (submit nq (intChars s.answer) s).2 = Outcome.correct ∧
      (submit nq (intChars s.answer) s).1.wrong_answers = 0) := by
  have hbuf : pyInt? (intChars s.answer) = some s.answer := pyInt_intChars s.answer
  refine ⟨?_, ?_, ?_⟩
  · by_cases h0 : s.remaining - 1 = 0 <;>
      simp [submit, check_answer, hbuf, flash, next_q, update_counter, h0]
  · intro h1
    have h0 : s.remaining - 1 = 0 := by omega
    simp [submit, check_answer, hbuf, flash, h0]
  · intro h1
    have h0 : ¬s.remaining - 1 = 0 := by omega
    simp [submit, check_answer, hbuf, flash, next_q, update_counter, h0]

/-- C1 witness: the property evaluated on the freshly started session. -/
theorem correct_answer_progress_witness :
    (submit qDemo (intChars (start qDemo).answer) (start qDemo)).1.remaining =
      (start qDemo).remaining - 1 ∧
    ((start qDemo).remaining = 1 →
      (submit qDemo (intChars (start qDemo).answer) (start qDemo)).2 =
        Outcome.sessionComplete) ∧
    (1 < (start qDemo).remaining →
      (submit qDemo (intChars (start qDemo).answer) (start qDemo)).2 = Outcome.correct ∧
      (submit qDemo (intChars (start qDemo).answer) (start qDemo)).1.wrong_answers = 0) :=
  correct_answer_progress (start qDemo) qDemo (by decide)

/-- C2: from zero strikes, a wrong parseable submission gives the
incorrect branch and one strike; a second wrong parseable submission on
the same question trips the threshold; a malformed submission between
them leaves the strike count unchanged, after which the wrong parseable
submission still trips the threshold; and no malformed submission ever
changes the strike counter. -/
theorem strike_and_malformed (s : St) (nq : Question) (t1 tm t2 : List Char)
    (g1 g2 : Int)
    (hw : s.wrong_answers = 0)
    (h1 : pyInt? t1 = some g1) (h1ne : g1 ≠ s.answer)
    (hm : pyInt? tm = none)
    (h2 : pyInt? t2 = some g2) (h2ne : g2 ≠ s.answer) :
    (submit nq t1 s).2 = Outcome.incorrect ∧
    (submit nq t1 s).1.wrong_answers = 1 ∧
    (submit nq t2 (submit nq t1 s).1).2 = Outcome.failureStarted ∧
    (submit nq tm (submit nq t1 s).1).2 = Outcome.malformed ∧
    (submit nq tm (submit nq t1 s).1).1.wrong_answers = (submit nq t1 s).1.wrong_answers ∧
    (submit nq t2 (submit nq tm (submit nq t1 s).1).1).2 = Outcome.failureStarted ∧
    (∀ (s2 : St) (u : List Char), pyInt? u = none →
      (submit nq u s2).1.wrong_answers = s2.wrong_answers) := by
  have ho1 : (submit nq t1 s).2 = Outcome.incorrect := by
    simp [submit, check_answer, h1, h1ne, hw, FAIL_THRESHOLD]
  have hw1 : (submit nq t1 s).1.wrong_answers = 1 := by
    simp [submit, check_answer, h1, h1ne, hw, FAIL_THRESHOLD, flash, update_counter]
  have ha1 : (submit nq t1 s).1.answer = s.answer := by
    simp [submit, check_answer, h1, h1ne, hw, FAIL_THRESHOLD, flash, update_counter]
  obtain ⟨S, hS⟩ : ∃ x, (submit nq t1 s).1 = x := ⟨_, rfl⟩
  rw [hS] at hw1 ha1
  rw [hS]
  have hom : (submit nq tm S).2 = Outcome.malformed := by
    simp [submit, check_answer, hm]
  have hwm : (submit nq tm S).1.wrong_answers = S.wrong_answers := by
    simp [submit, check_answer, hm, flash]
  have ham : (submit nq tm S).1.answer = S.answer := by
    simp [submit, check_answer, hm, flash]
  have ho2 : (submit nq t2 S).2 = Outcome.failureStarted := by
    simp [submit, check_answer, h2, h2ne, ha1, hw1, FAIL_THRESHOLD]
  obtain ⟨S2, hS2⟩ : ∃ x, (submit nq tm S).1 = x := ⟨_, rfl⟩
  rw [hS2] at hwm ham
  rw [hS2]
  have ha2 : S2.answer = s.answer := ham.trans ha1
  have hw2 : S2.wrong_answers = 1 := hwm.trans hw1
  have ho3 : (submit nq t2 S2).2 = Outcome.failureStarted := by
    simp [submit, check_answer, h2, h2ne, ha2, hw2, FAIL_THRESHOLD]
  have hgen : ∀ (s2 : St) (u : List Char), pyInt? u = none →
      (submit nq u s2).1.wrong_answers = s2.wrong_answers := by
    intro s2 u hu
    simp [submit, check_answer, hu, flash]
  exact ⟨ho1, hw1, ho2, hom, hwm, ho3, hgen⟩

/-- C2 witness: the strike property evaluated on the freshly started
session with wrong guesses 4 and 7 and the unparseable text x. -/
theorem strike_and_malformed_witness :
    (submit qDemo ['4'] (start qDemo)).2 = Outcome.incorrect ∧
    (submit qDemo ['4'] (start qDemo)).1.wrong_answers = 1 ∧
    (submit qDemo ['7'] (submit qDemo ['4'] (start qDemo)).1).2 = Outcome.failureStarted ∧
    (submit qDemo ['x'] (submit qDemo ['4'] (start qDemo)).1).2 = Outcome.malformed ∧
    (submit qDemo ['x'] (submit qDemo ['4'] (start qDemo)).1).1.wrong_answers =
      (submit qDemo ['4'] (start qDemo)).1.wrong_answers ∧
    (submit qDemo ['7']
      (submit qDemo ['x'] (submit qDemo ['4'] (start qDemo)).1).1).2 =
      Outcome.failureStarted ∧
    (∀ (s2 : St) (u : List Char), pyInt? u = none →
      (submit qDemo u s2).1.wrong_answers = s2.wrong_answers) :=
  strike_and_malformed (start qDemo) qDemo ['4'] ['x'] ['7'] 4 7
    (by decide) (by decide) (by decide) (by decide) (by decide) (by decide)

/-- C3: once a failure sequence completes (the trigger tick plus the
remaining five timer ticks), the strike counter is zero, remaining is
exactly one more than immediately before the sequence began, and the
current question (expected answer and displayed text) is unchanged. -/
theorem failure_sequence_recovery (s : St) :
    (runTicks 5 (show_failure s)).wrong_answers = 0 ∧
    (runTicks 5 (show_failure s)).remaining = s.remaining + 1 ∧
    (runTicks 5 (show_failure s)).answer = s.answer ∧
    (runTicks 5 (show_failure s)).qLabel = s.qLabel := by
  refine ⟨?_, ?_, ?_, ?_⟩ <;>
    norm_num [runTicks, show_failure, failureFlash, update_counter]

/-- C4 counterexample: in the start(3, 2) scenario, the failure sequence
raises remaining from 3 to 4 (not from 2 back to 3), and after it three
correct submissions reach remaining 3, 2, 1 with the third yielding the
correct branch, not session completion. -/
theorem end_to_end_counterexample :
    c4w2.2 = Outcome.failureStarted ∧
    c4sF.remaining = 4 ∧
    ¬c4sF.remaining = 3 ∧
    c4c1.2 = Outcome.correct ∧ c4c1.1.remaining = 3 ∧
    c4c2.2 = Outcome.correct ∧ c4c2.1.remaining = 2 ∧
    c4c3.2 = Outcome.correct ∧ c4c3.1.remaining = 1 ∧
    ¬c4c3.2 = Outcome.sessionComplete := by
  decide

/-- C4 amended: start(3, 2), submit wrong, submit wrong: the second
wrong submission triggers the failure sequence with remaining bumped
from 3 to 4 and the same question re-posed; four correct submissions
then take remaining to 3, 2 and 1 and finally produce session
completion. -/
theorem end_to_end_trace :
    (submit qDemo ['4'] c4s0).2 = Outcome.incorrect ∧
    c4w1.wrong_answers = 1 ∧
    c4w2.2 = Outcome.failureStarted ∧
    c4sF.remaining = 4 ∧
    c4sF.wrong_answers = 0 ∧
    c4sF.answer = c4s0.answer ∧
    c4sF.qLabel = c4s0.qLabel ∧
    c4c1.2 = Outcome.correct ∧ c4c1.1.remaining = 3 ∧
    c4c2.2 = Outcome.correct ∧ c4c2.1.remaining = 2 ∧
    c4c3.2 = Outcome.correct ∧ c4c3.1.remaining = 1 ∧
    c4c4.2 = Outcome.sessionComplete := by
  decide

/-- C5: every question the generator can produce from in-range
randomness satisfies the invariant: a division question has a nonzero
divisor, the dividend is an exact multiple of it, and the expected
answer is exactly the chosen quotient; an addition or subtraction
question has distinct operands. -/
theorem generated_question_invariant (r : Rng) (q : Question)
    (hv : r.Valid) (hq : new_question r = some q) :
    (q.op = Op.divi →
      q.b ≠ 0 ∧ q.a % q.b = 0 ∧ q.a = q.b * r.divQ ∧ q.expectedAnswer = r.divQ) ∧
    ((q.op = Op.add ∨ q.op = Op.sub) → q.a ≠ q.b) := by
  obtain ⟨-, -, -, -, hb3, -, -, -, -⟩ := hv
  cases hop : r.op with
  | mul =>
    simp only [new_question, hop, Option.some_inj] at hq
    subst hq
    exact ⟨fun h => by simp at h, fun h => by rcases h with h | h <;> simp at h⟩
  | divi =>
    simp only [new_question, hop, Option.some_inj] at hq
    subst hq
    have hb0 : r.divB ≠ 0 := by omega
    refine ⟨fun _ => ⟨hb0, Int.mul_emod_right _ _, rfl, ?_⟩,
      fun h => by rcases h with h | h <;> simp at h⟩
    exact Int.mul_fdiv_cancel_left _ hb0
  | add =>
    simp only [new_question, hop, Option.map_eq_some'] at hq
    obtain ⟨p, hp, hpq⟩ := hq
    subst hpq
    exact ⟨fun h => by simp at h, fun _ => firstDistinct_ne hp⟩
  | sub =>
    simp only [new_question, hop, Option.map_eq_some'] at hq
    obtain ⟨p, hp, hpq⟩ := hq
    subst hpq
    exact ⟨fun h => by simp at h, fun _ => firstDistinct_ne hp⟩

/-- C5 witness: the invariant evaluated on the concrete division draw. -/
theorem generated_question_invariant_witness :
    (qDiv.op = Op.divi →
      qDiv.b ≠ 0 ∧ qDiv.a % qDiv.b = 0 ∧ qDiv.a = qDiv.b * rDemo.divQ ∧
      qDiv.expectedAnswer = rDemo.divQ) ∧
    ((qDiv.op = Op.add ∨ qDiv.op = Op.sub) → qDiv.a ≠ qDiv.b) :=
  generated_question_invariant rDemo qDiv
    (by unfold Rng.Valid; exact ⟨by decide, by decide, by decide, by decide, by decide,
      by decide, by decide, by decide, by decide⟩)
    (by decide)

/-- C6 counterexample: on the final correct answer the sessionComplete
branch returns with the submitted text still in the answer field, so not
every branch clears the buffer. -/
theorem complete_leaves_buffer_counterexample :
    (submit qDemo ['5'] sLast).2 = Outcome.sessionComplete ∧
    (submit qDemo ['5'] sLast).1.buffer = ['5'] ∧
    ¬((['5'] : List Char) = []) := by
  decide

/-- C6 amended: every check_answer branch except the sessionComplete
branch (which terminates the process at once) clears the answer buffer
before returning. -/
theorem buffer_cleared_unless_complete (s : St) (t : List Char) (nq : Question)
    (h : (submit nq t s).2 ≠ Outcome.sessionComplete) :
    (submit nq t s).1.buffer = [] := by
  rcases hp : pyInt? t with _ | guess
  · simp [submit, check_answer, hp, flash]
  · by_cases hg : guess = s.answer
    · by_cases h0 : s.remaining - 1 = 0
      · exact absurd (by simp [submit, check_answer, hp, hg, flash, h0]) h
      · simp [submit, check_answer, hp, hg, flash, h0, next_q, update_counter]
    · by_cases hf : s.wrong_answers + 1 ≥ FAIL_THRESHOLD
      · simp [submit, check_answer, hp, hg, hf, show_failure, failureFlash,
          update_counter]
      · simp [submit, check_answer, hp, hg, hf, flash, update_counter]

/-- C6 amended witness: the buffer is empty after a malformed submission
on the freshly started session. -/
theorem buffer_cleared_unless_complete_witness :
    (submit qDemo ['x'] (start qDemo)).1.buffer = [] :=
  buffer_cleared_unless_complete (start qDemo) ['x'] qDemo (by decide)

/-- C7 counterexample: a keystroke of superscript two (U+00B2, code
point 178), with a key code that is neither Enter nor Backspace, is not
an ASCII digit and not a sign, yet Python str.isdigit accepts it, so
the filter passes it to insertText_ and it is appended to the buffer:
not a true no-op as the claim requires for such a keystroke. -/
theorem keydown_nonascii_counterexample :
    (10 : Nat) ≠ 36 ∧ (10 : Nat) ≠ 51 ∧
    ('²').toNat = 178 ∧
    ¬(isAsciiDigit '²' = true ∨ '²' = '+' ∨ '²' = '-') ∧
    keyDown ⟨10, ['²']⟩ [] = (['²'], false) ∧
    ¬(keyDown ⟨10, ['²']⟩ [] = ([], false)) := by
  decide

/-- C7 amended: for a single-character key event, the filter accepts
Enter (key code 36) by firing the submission handler; appends any
character accepted by Python str.isdigit (the ASCII digits together
with the other Unicode digit characters) or a sign character; accepts
Backspace (key code 51, with non-accepted characters) by dropping the
last buffer character; and treats every other keystroke as a true no-op
on the buffer with no submission fired. -/
theorem keydown_filter_cases_amended (code : Nat) (c : Char) (buf : List Char) :
    (code = 36 → keyDown ⟨code, [c]⟩ buf = (buf, true)) ∧
    (code ≠ 36 → (pyIsDigitChar c = true ∨ c = '+' ∨ c = '-') →
      keyDown ⟨code, [c]⟩ buf = (buf ++ [c], false)) ∧
    (code ≠ 36 → code = 51 → ¬(pyIsDigitChar c = true ∨ c = '+' ∨ c = '-') →
      keyDown ⟨code, [c]⟩ buf = (buf.dropLast, false)) ∧
    (code ≠ 36 → code ≠ 51 → ¬(pyIsDigitChar c = true ∨ c = '+' ∨ c = '-') →
      keyDown ⟨code, [c]⟩ buf = (buf, false)) := by
  refine ⟨?_, ?_, ?_, ?_⟩
  · intro h
    simp [keyDown, h]
  · intro h hacc
    have hor : (pyIsDigitStr [c] || pyInPlusMinus [c]) = true := by
      rcases hacc with hd | rfl | rfl
      · simp [pyIsDigitStr, hd]
      · decide
      · decide
    simp [keyDown, h, hor, insertTextFilter]
  · intro h h51 hrej
    have hA : pyIsDigitChar c = false :=
      Bool.eq_false_iff.mpr (fun hh => hrej (Or.inl hh))
    have hB : c ≠ '+' := fun hh => hrej (Or.inr (Or.inl hh))
    have hC : c ≠ '-' := fun hh => hrej (Or.inr (Or.inr hh))
    have hor : (pyIsDigitStr [c] || pyInPlusMinus [c]) = false := by
      simp [pyIsDigitStr, pyInPlusMinus, hA, hB, hC]
    simp [keyDown, h, h51, hor]
  · intro h h51 hrej
    have hA : pyIsDigitChar c = false :=
      Bool.eq_false_iff.mpr (fun hh => hrej (Or.inl hh))
    have hB : c ≠ '+' := fun hh => hrej (Or.inr (Or.inl hh))
    have hC : c ≠ '-' := fun hh => hrej (Or.inr (Or.inr hh))
    have hor : (pyIsDigitStr [c] || pyInPlusMinus [c]) = false := by
      simp [pyIsDigitStr, pyInPlusMinus, hA, hB, hC]
    simp [keyDown, h, h51, hor]

/-- C7 amended witness: a letter keystroke with a non-special key code
is a true no-op. -/
theorem keydown_filter_cases_amended_witness :
    keyDown ⟨40, ['q']⟩ ['1'] = (['1'], false) :=
  (keydown_filter_cases_amended 40 'q' ['1']).2.2.2 (by decide) (by decide) (by decide)

/-- C8: the check-then-act re-assert step of both the burst-ladder
callback (delayedFocus_) and the repeating heartbeat tick (ensureFocus_)
is idempotent: when the answer field already holds focus it changes
nothing at all, in particular neither the reported focus holder nor the
caret. -/
theorem focus_reassert_idempotent (s : FocusSt)
    (h : s.firstResponder = Responder.ansField) :
    delayedFocus s = s ∧ ensureFocus s = s := by
  constructor <;> simp [delayedFocus, ensureFocus, h]

/-- C8 witness: an already-focused state with a nonzero caret is left
untouched by both re-assert steps. -/
theorem focus_reassert_idempotent_witness :
    delayedFocus ⟨Responder.ansField, (7, 0)⟩ = ⟨Responder.ansField, (7, 0)⟩ ∧
    ensureFocus ⟨Responder.ansField, (7, 0)⟩ = ⟨Responder.ansField, (7, 0)⟩ :=
  focus_reassert_idempotent ⟨Responder.ansField, (7, 0)⟩ rfl

/-- C9 counterexample: two flashes 0.20 s apart leave both revert timers
pending; the first still fires 0.35 s after the first flash and reverts
the background to neutral although the fixed delay after the most recent
flash has not yet elapsed, so the pending revert is not replaced. -/
theorem flash_revert_counterexample :
    (flashAt 20 false (flashAt 0 false ⟨Color.black, []⟩)).pending = [35, 55] ∧
    (fireAt 35 (flashAt 20 false (flashAt 0 false ⟨Color.black, []⟩))).bg =
      Color.black ∧
    35 < 20 + flashDelay := by
  decide

/-- C9 amended: requesting a new simple flash never cancels a pending
revert; it sets the flash color and appends one fresh revert timer due a
full delay later, leaving every earlier pending revert in place (so the
background can revert earlier than a full delay after the most recent
flash request). -/
theorem flash_appends_revert_timer (f : FlashSys) (t : Nat) (ok : Bool) :
    (flashAt t ok f).pending = f.pending ++ [t + flashDelay] ∧
    (flashAt t ok f).bg = (if ok then Color.green else Color.red) := by
  exact ⟨rfl, rfl⟩

/-- C10: a submission whose text does not parse as a signed integer
takes the malformed branch and changes no quiz state except the answer
buffer: remaining, the strike counter, the expected answer, the question
label and the counter label keep their prior values, while the buffer is
cleared and the background flashes red. -/
theorem malformed_frame (s : St) (t : List Char) (nq : Question)
    (h : pyInt? t = none) :
    (submit nq t s).2 = Outcome.malformed ∧
    (submit nq t s).1.remaining = s.remaining ∧
    (submit nq t s).1.wrong_answers = s.wrong_answers ∧
    (submit nq t s).1.answer = s.answer ∧
    (submit nq t s).1.qLabel = s.qLabel ∧
    (submit nq t s).1.counter = s.counter ∧
    (submit nq t s).1.buffer = [] ∧
    (submit nq t s).1.bg = Color.red := by
  refine ⟨?_, ?_, ?_, ?_, ?_, ?_, ?_, ?_⟩ <;> simp [submit, check_answer, h, flash]

/-- C10 witness: the frame condition evaluated for the unparseable text x
on the freshly started session. -/
theorem malformed_frame_witness :
    (submit qDemo ['x'] (start qDemo)).2 = Outcome.malformed ∧
    (submit qDemo ['x'] (start qDemo)).1.remaining = (start qDemo).remaining ∧
    (submit qDemo ['x'] (start qDemo)).1.wrong_answers = (start qDemo).wrong_answers ∧
    (submit qDemo ['x'] (start qDemo)).1.answer = (start qDemo).answer ∧
    (submit qDemo ['x'] (start qDemo)).1.qLabel = (start qDemo).qLabel ∧
    (submit qDemo ['x'] (start qDemo)).1.counter = (start qDemo).counter ∧
    (submit qDemo ['x'] (start qDemo)).1.buffer = [] ∧
    (submit qDemo ['x'] (start qDemo)).1.bg = Color.red :=
  malformed_frame (start qDemo) ['x'] qDemo (by decide)

end MathLock
